import Mathlib

/-!
Verification of the environment bootstrapper in `src/project_setup.py`.

The module under study exposes `configure_environment(project_root)`,
which configures logging, ensures `<project_root>/data/processed`
exists (downgrading any `OSError` to a warning), and, when
`<project_root>/.env` is a regular file, loads it via `_load_dotenv`:
each line is stripped, empty and `#`-comment lines are skipped, the rest
are split at the first `=` (`str.partition`), and non-empty keys are
written to the process environment with `os.environ.setdefault`.

We embed the string processing over `List Char`, the process
environment as an association list, and the filesystem effects as an
explicit `World` record with a step function returning `Except`.
-/

namespace ProjectSetup

/-- The whitespace characters stripped by Python's `str.strip()`
(restricted to the ASCII range, which is what the module handles). -/
def pyWhitespace (c : Char) : Bool :=
  c = ' ' || c = '\t' || c = '\n' || c = '\x0d' || c = '\x0b' || c = '\x0c'

/-- `str.strip()` on a character list: drop whitespace from both ends. -/
def pyStripList (cs : List Char) : List Char :=
  ((cs.dropWhile pyWhitespace).reverse.dropWhile pyWhitespace).reverse

/-- `str.strip()` on a string. -/
def pyStrip (s : String) : String :=
  String.mk (pyStripList s.data)

/-- `line.startswith("#")`: the first character is `#`. -/
def pyStartsHash (s : String) : Bool :=
  match s.data with
  | [] => false
  | c :: _ => c = '#'

/-- `line.partition("=")` projected to `(key, value)`: `key` is
everything before the first `=`, `value` everything after it; when no
`=` occurs, `key` is the whole string and `value` is empty. -/
def pyPartitionEq (s : String) : String × String :=
  (String.mk (s.data.takeWhile (fun c => c ≠ '=')),
   String.mk ((s.data.dropWhile (fun c => c ≠ '=')).drop 1))

/-- The process environment: an association mapping of variable names to
values, looked up front to back. -/
abbrev Env := List (String × String)

/-- Environment lookup (`os.environ.get`). -/
def lookupVar (e : Env) (k : String) : Option String :=
  match e with
  | [] => none
  | (k1, v) :: rest => if k1 = k then some v else lookupVar rest k

/-- `os.environ.setdefault(k, v)`: insert the binding only when `k` is
absent; an existing binding is never overwritten. -/
def setdefault (e : Env) (k v : String) : Env :=
  match lookupVar e k with
  | some _ => e
  | none => e ++ [(k, v)]

/-- Processing of one raw line of the dotfile, as in `_load_dotenv`:
strip, skip blank and comment lines, partition at the first `=`, and
`setdefault` the stripped key/value when the key is non-empty. -/
def processLine (e : Env) (rawLine : String) : Env :=
  let line := pyStrip rawLine
  if line = "" ∨ pyStartsHash line then e
  else
    let kv := pyPartitionEq line
    if kv.1 ≠ "" then setdefault e (pyStrip kv.1) (pyStrip kv.2) else e

/-- `_load_dotenv`, given the decoded lines of the file: fold
`processLine` over them in order. -/
def load_dotenv (e : Env) (lines : List String) : Env :=
  lines.foldl processLine e

/-- The key that `processLine` would bind for a raw line, `none` when
the line is skipped. -/
def lineKey (rawLine : String) : Option String :=
  let line := pyStrip rawLine
  if line = "" ∨ pyStartsHash line then none
  else if (pyPartitionEq line).1 ≠ "" then some (pyStrip (pyPartitionEq line).1)
  else none

/-- The value that `processLine` would bind for a raw line. -/
def lineVal (rawLine : String) : String :=
  pyStrip (pyPartitionEq (pyStrip rawLine)).2

/-- The sample dotfile contents from the testable-properties section. -/
def sampleLines : List String :=
  ["FOO=bar", "# comment", "BAZ = qux", "EMPTY=", "=novalue", "NOKEY"]

/-- Result of opening and decoding the dotfile as UTF-8. -/
inductive ReadResult where
  | ok (lines : List String)
  | err (e : String)
deriving DecidableEq

/-- The observable state `configure_environment` acts on: the status of
`<root>/data/processed`, the dotfile, the process environment, the
warnings logged so far, and whether logging was configured. -/
structure World where
  dirExists : Bool
  mkdirError : Option String
  dotfileIsFile : Bool
  dotfileRead : ReadResult
  env : Env
  warnings : List String
  loggingConfigured : Bool
deriving DecidableEq

/-- `Path.mkdir(parents=True, exist_ok=True)`: a no-op when the
directory exists; otherwise either the recorded `OSError` is raised or
the directory is created. Returns the new world and the raised error. -/
def mkdir_p (w : World) : World × Option String :=
  if w.dirExists then (w, none)
  else
    match w.mkdirError with
    | some e => (w, some e)
    | none => ({ w with dirExists := true }, none)

/-- The formatted warning record emitted when directory creation fails:
it carries the directory path and the underlying error text. -/
def warnMsg (path e : String) : String :=
  "Unable to create processed data directory " ++ path ++ ": " ++ e

/-- The conditional dotfile-load step at the end of
`_ensure_data_directories`: when `<root>/.env` is a regular file, read
it (propagating any read error) and run `_load_dotenv`; otherwise do
nothing. -/
def dotfile_step (w : World) : Except String World :=
  if w.dotfileIsFile then
    match w.dotfileRead with
    | ReadResult.err e => Except.error e
    | ReadResult.ok lines => Except.ok { w with env := load_dotenv w.env lines }
  else Except.ok w

/-- `_ensure_data_directories`: attempt `mkdir`, downgrade its failure
to a single warning containing the path and the error, then run the
conditional dotfile-load step. -/
def ensure_data_directories (root : String) (w : World) : Except String World :=
  let r := mkdir_p w
  let w2 := match r.2 with
    | none => r.1
    | some e =>
        { r.1 with warnings := r.1.warnings ++ [warnMsg (root ++ "/data/processed") e] }
  dotfile_step w2

/-- `_configure_logging`: `logging.basicConfig`, which touches only the
logging configuration. -/
def configure_logging (w : World) : World :=
  { w with loggingConfigured := true }

/-- `configure_environment`: configure logging, then ensure the data
directories (which includes the conditional dotfile load). -/
def configure_environment (root : String) (w : World) : Except String World :=
  ensure_data_directories root (configure_logging w)

/-- The state reached just after the logging and mkdir steps of
`configure_environment` (the `try`/`except OSError` block), before the
conditional dotfile load. -/
def warned (root : String) (w : World) : World :=
  if w.dirExists then { w with loggingConfigured := true }
  else
    match w.mkdirError with
    | none => { w with loggingConfigured := true, dirExists := true }
    | some e =>
        { w with
          loggingConfigured := true
          warnings := w.warnings ++ [warnMsg (root ++ "/data/processed") e] }

/-! ### Lookup and setdefault lemmas -/

theorem lookupVar_append_of_some {e : Env} {k v : String} (e2 : Env)
    (h : lookupVar e k = some v) : lookupVar (e ++ e2) k = some v := by
  induction e with
  | nil => simp [lookupVar] at h
  | cons a rest ih =>
    obtain ⟨k1, v1⟩ := a
    simp only [lookupVar, List.cons_append] at h ⊢
    by_cases hk : k1 = k
    · simpa [hk] using h
    · rw [if_neg hk] at h ⊢
      exact ih h

theorem lookupVar_append_of_none {e : Env} {k : String} (e2 : Env)
    (h : lookupVar e k = none) : lookupVar (e ++ e2) k = lookupVar e2 k := by
  induction e with
  | nil => simp
  | cons a rest ih =>
    obtain ⟨k1, v1⟩ := a
    simp only [lookupVar, List.cons_append] at h ⊢
    by_cases hk : k1 = k
    · simp [hk] at h
    · rw [if_neg hk] at h ⊢
      exact ih h

theorem setdefault_of_absent {e : Env} {k : String} (v : String)
    (h : lookupVar e k = none) : setdefault e k v = e ++ [(k, v)] := by
  unfold setdefault
  rw [h]

theorem setdefault_of_present {e : Env} {k v1 : String} (v : String)
    (h : lookupVar e k = some v1) : setdefault e k v = e := by
  unfold setdefault
  rw [h]

theorem lookupVar_setdefault_of_some {e : Env} {k v : String} (k1 v1 : String)
    (h : lookupVar e k = some v) : lookupVar (setdefault e k1 v1) k = some v := by
  unfold setdefault
  cases hl : lookupVar e k1 with
  | some w => exact h
  | none => exact lookupVar_append_of_some _ h

theorem lookupVar_setdefault_self (e : Env) (k v : String) :
    lookupVar (setdefault e k v) k ≠ none := by
  unfold setdefault
  cases hl : lookupVar e k with
  | some w => simp [hl]
  | none =>
    rw [lookupVar_append_of_none _ hl]
    simp [lookupVar]

theorem lookupVar_setdefault_ne {e : Env} {k k1 : String} (v1 : String) (h : k1 ≠ k) :
    lookupVar (setdefault e k1 v1) k = lookupVar e k := by
  unfold setdefault
  cases hl : lookupVar e k1 with
  | some w => rfl
  | none =>
    cases hk : lookupVar e k with
    | some v => exact lookupVar_append_of_some _ hk
    | none =>
      rw [lookupVar_append_of_none _ hk]
      simp [lookupVar, h]

/-! ### processLine characterized by lineKey / lineVal -/

theorem processLine_of_lineKey_none (e : Env) {rawLine : String}
    (h : lineKey rawLine = none) : processLine e rawLine = e := by
  unfold processLine
  unfold lineKey at h
  by_cases h1 : pyStrip rawLine = "" ∨ pyStartsHash (pyStrip rawLine)
  · simp [h1]
  · simp only [h1, if_false] at h ⊢
    by_cases h2 : (pyPartitionEq (pyStrip rawLine)).1 = ""
    · simp [h2]
    · simp [h2] at h

theorem processLine_of_lineKey_some (e : Env) {rawLine k : String}
    (h : lineKey rawLine = some k) :
    processLine e rawLine = setdefault e k (lineVal rawLine) := by
  unfold processLine lineVal
  unfold lineKey at h
  by_cases h1 : pyStrip rawLine = "" ∨ pyStartsHash (pyStrip rawLine)
  · simp [h1] at h
  · simp only [h1, if_false] at h ⊢
    by_cases h2 : (pyPartitionEq (pyStrip rawLine)).1 = ""
    · simp [h2] at h
    · simp only [h2, ne_eq, not_false_eq_true, if_true, Option.some.injEq] at h ⊢
      rw [h]

theorem lookupVar_processLine_of_some {e : Env} {k v : String} (rawLine : String)
    (h : lookupVar e k = some v) : lookupVar (processLine e rawLine) k = some v := by
  cases hk : lineKey rawLine with
  | none =>
    rw [processLine_of_lineKey_none e hk]
    exact h
  | some k1 =>
    rw [processLine_of_lineKey_some e hk]
    exact lookupVar_setdefault_of_some _ _ h

theorem lookupVar_processLine_ne_none {e : Env} {k : String} (rawLine : String)
    (h : lookupVar e k ≠ none) : lookupVar (processLine e rawLine) k ≠ none := by
  cases hv : lookupVar e k with
  | none => exact absurd hv h
  | some v =>
    rw [lookupVar_processLine_of_some rawLine hv]
    simp

theorem lookupVar_processLine_self (e : Env) {rawLine k : String}
    (h : lineKey rawLine = some k) : lookupVar (processLine e rawLine) k ≠ none := by
  rw [processLine_of_lineKey_some e h]
  exact lookupVar_setdefault_self _ _ _

theorem lookupVar_processLine_other {e : Env} {k : String} (rawLine : String)
    (h : lineKey rawLine ≠ some k) :
    lookupVar (processLine e rawLine) k = lookupVar e k := by
  cases hk : lineKey rawLine with
  | none => rw [processLine_of_lineKey_none e hk]
  | some k1 =>
    rw [processLine_of_lineKey_some e hk]
    exact lookupVar_setdefault_ne _ (fun hkk => h (hkk ▸ hk))

/-! ### load_dotenv: preservation, coverage, idempotence -/

theorem lookupVar_load_dotenv_of_some {e : Env} {k v : String} (lines : List String)
    (h : lookupVar e k = some v) : lookupVar (load_dotenv e lines) k = some v := by
  unfold load_dotenv
  induction lines generalizing e with
  | nil => exact h
  | cons l rest ih => exact ih (lookupVar_processLine_of_some l h)

theorem lookupVar_load_dotenv_ne_none {e : Env} {k : String} (lines : List String)
    (h : lookupVar e k ≠ none) : lookupVar (load_dotenv e lines) k ≠ none := by
  cases hv : lookupVar e k with
  | none => exact absurd hv h
  | some v =>
    rw [lookupVar_load_dotenv_of_some lines hv]
    simp

theorem load_dotenv_covers {e : Env} {lines : List String} :
    ∀ l ∈ lines, ∀ k, lineKey l = some k → lookupVar (load_dotenv e lines) k ≠ none := by
  unfold load_dotenv
  induction lines generalizing e with
  | nil => intro l hl; simp at hl
  | cons l0 rest ih =>
    intro l hl k hk
    simp only [List.foldl_cons]
    rcases List.mem_cons.mp hl with h1 | h2
    · subst h1
      exact lookupVar_load_dotenv_ne_none rest (lookupVar_processLine_self e hk)
    · exact ih l h2 k hk

theorem load_dotenv_covered {e : Env} {lines : List String}
    (h : ∀ l ∈ lines, ∀ k, lineKey l = some k → lookupVar e k ≠ none) :
    load_dotenv e lines = e := by
  unfold load_dotenv
  induction lines with
  | nil => rfl
  | cons l rest ih =>
    have h1 : processLine e l = e := by
      cases hk : lineKey l with
      | none => exact processLine_of_lineKey_none e hk
      | some k1 =>
        rw [processLine_of_lineKey_some e hk]
        cases hl : lookupVar e k1 with
        | some w => exact setdefault_of_present _ hl
        | none => exact absurd hl (h l (by simp) k1 hk)
    simp only [List.foldl_cons, h1]
    exact ih (fun l2 hm => h l2 (by simp [hm]))

theorem load_dotenv_idem (e : Env) (lines : List String) :
    load_dotenv (load_dotenv e lines) lines = load_dotenv e lines :=
  load_dotenv_covered (fun l hl k hk => load_dotenv_covers l hl k hk)

/-! ### Facts about pyStrip and pyPartitionEq -/

theorem dropWhile_head_false {p : Char → Bool} :
    ∀ {l : List Char} {c : Char} {cs : List Char}, l.dropWhile p = c :: cs → p c = false := by
  intro l
  induction l with
  | nil => intro c cs h; simp [List.dropWhile] at h
  | cons a t ih =>
    intro c cs h
    by_cases ha : p a
    · rw [List.dropWhile_cons, if_pos ha] at h
      exact ih h
    · rw [List.dropWhile_cons, if_neg ha] at h
      obtain ⟨rfl, -⟩ := List.cons.inj h
      simpa using ha

theorem pyStripList_head_not_ws {cs : List Char} {c : Char} {cs' : List Char}
    (h : pyStripList cs = c :: cs') : pyWhitespace c = false := by
  unfold pyStripList at h
  obtain ⟨t, ht⟩ := List.dropWhile_suffix (l := (cs.dropWhile pyWhitespace).reverse) pyWhitespace
  have hmm : cs.dropWhile pyWhitespace =
      ((cs.dropWhile pyWhitespace).reverse.dropWhile pyWhitespace).reverse ++ t.reverse := by
    have h2 := congrArg List.reverse ht
    simpa [List.reverse_append] using h2.symm
  rw [h] at hmm
  exact dropWhile_head_false (by rw [hmm]; rfl)

theorem pyStripList_reverse_head {cs : List Char} {c : Char} {cs' : List Char}
    (h : (pyStripList cs).reverse = c :: cs') : pyWhitespace c = false := by
  unfold pyStripList at h
  rw [List.reverse_reverse] at h
  exact dropWhile_head_false h

theorem pyStripList_cons_ne_nil {c : Char} (cs : List Char) (h : pyWhitespace c = false) :
    pyStripList (c :: cs) ≠ [] := by
  unfold pyStripList
  intro hcon
  have h1 : (c :: cs).dropWhile pyWhitespace = c :: cs := by
    rw [List.dropWhile_cons, if_neg (by simp [h])]
  rw [h1] at hcon
  have h2 : (c :: cs).reverse.dropWhile pyWhitespace = [] := by
    simpa using hcon
  rw [List.dropWhile_eq_nil_iff] at h2
  have h3 := h2 c (by simp)
  simp [h] at h3

theorem pyStripList_idem (cs : List Char) : pyStripList (pyStripList cs) = pyStripList cs := by
  rcases hl : pyStripList cs with _ | ⟨c, t⟩
  · rfl
  · have hc : pyWhitespace c = false := pyStripList_head_not_ws hl
    unfold pyStripList
    have h1 : (c :: t).dropWhile pyWhitespace = c :: t := by
      rw [List.dropWhile_cons, if_neg (by simp [hc])]
    rw [h1]
    rcases hr : (c :: t).reverse with _ | ⟨d, u⟩
    · simp at hr
    · have hd : pyWhitespace d = false := pyStripList_reverse_head (by rw [hl, hr])
      rw [List.dropWhile_cons, if_neg (by simp [hd])]
      have h3 := congrArg List.reverse hr
      rw [List.reverse_reverse] at h3
      exact h3.symm

theorem pyStrip_data (s : String) : (pyStrip s).data = pyStripList s.data := rfl

theorem pyStrip_idem (s : String) : pyStrip (pyStrip s) = pyStrip s := by
  unfold pyStrip
  exact congrArg String.mk (pyStripList_idem s.data)

theorem pyStrip_eq_empty_iff {s : String} : pyStrip s = "" ↔ pyStripList s.data = [] := by
  constructor
  · intro h
    exact congrArg String.data h
  · intro h
    unfold pyStrip
    rw [h]

theorem takeWhile_append_ne {k : List Char} (v : List Char) (h : '=' ∉ k) :
    (k ++ '=' :: v).takeWhile (fun c => c ≠ '=') = k := by
  induction k with
  | nil => simp [List.takeWhile_cons]
  | cons a t ih =>
    simp only [List.mem_cons, not_or] at h
    have ha : a ≠ '=' := fun hx => h.1 hx.symm
    rw [List.cons_append, List.takeWhile_cons, if_pos (by simpa using ha), ih h.2]

theorem dropWhile_append_ne {k : List Char} (v : List Char) (h : '=' ∉ k) :
    (k ++ '=' :: v).dropWhile (fun c => c ≠ '=') = '=' :: v := by
  induction k with
  | nil => simp [List.dropWhile_cons]
  | cons a t ih =>
    simp only [List.mem_cons, not_or] at h
    have ha : a ≠ '=' := fun hx => h.1 hx.symm
    rw [List.cons_append, List.dropWhile_cons, if_pos (by simpa using ha)]
    exact ih h.2

theorem pyPartitionEq_append {k v : String} (h : '=' ∉ k.data) :
    pyPartitionEq (k ++ "=" ++ v) = (k, v) := by
  unfold pyPartitionEq
  have heq : ("=" : String).data = ['='] := by decide
  have hd : (k ++ "=" ++ v).data = k.data ++ '=' :: v.data := by
    rw [String.data_append, String.data_append, heq, List.append_assoc]
    rfl
  rw [hd, takeWhile_append_ne _ h, dropWhile_append_ne _ h]
  simp

theorem pyPartitionEq_no_eq {s : String} (h : '=' ∉ s.data) :
    pyPartitionEq s = (s, "") := by
  unfold pyPartitionEq
  have h1 : s.data.takeWhile (fun c => c ≠ '=') = s.data := by
    rw [List.takeWhile_eq_self_iff]
    intro a ha
    simp only [decide_eq_true_eq]
    intro hx
    exact h (hx ▸ ha)
  have h2 : s.data.dropWhile (fun c => c ≠ '=') = [] := by
    rw [List.dropWhile_eq_nil_iff]
    intro a ha
    simp only [decide_eq_true_eq]
    intro hx
    exact h (hx ▸ ha)
  rw [h1, h2]
  rfl

theorem pyPartitionEq_key_ne_empty {rawLine : String}
    (h2 : pyStrip (pyPartitionEq (pyStrip rawLine)).1 = "") :
    (pyPartitionEq (pyStrip rawLine)).1 = "" := by
  rcases hk : (pyPartitionEq (pyStrip rawLine)).1.data with _ | ⟨c, rest⟩
  · apply String.ext
    rw [hk]
  · exfalso
    have hkw : (pyStrip rawLine).data.takeWhile (fun c => c ≠ '=') = c :: rest := hk
    obtain ⟨t, ht⟩ := List.takeWhile_prefix (l := (pyStrip rawLine).data) (fun c => c ≠ '=')
    rw [hkw] at ht
    have hhead : (pyStrip rawLine).data = c :: (rest ++ t) := by
      rw [← ht]
      rfl
    have hc : pyWhitespace c = false :=
      @pyStripList_head_not_ws rawLine.data c (rest ++ t)
        (by rw [← pyStrip_data, hhead])
    have hne : pyStripList (c :: rest) ≠ [] := pyStripList_cons_ne_nil rest hc
    apply hne
    rw [← hk]
    exact pyStrip_eq_empty_iff.mp h2

/-! ### World-level structure of configure_environment -/

theorem configure_environment_eq (root : String) (w : World) :
    configure_environment root w = dotfile_step (warned root w) := by
  unfold configure_environment ensure_data_directories configure_logging mkdir_p warned
  by_cases h1 : w.dirExists
  · simp [h1]
  · simp only [h1, if_false, Bool.false_eq_true]
    cases w.mkdirError <;> simp

theorem warned_env (root : String) (w : World) : (warned root w).env = w.env := by
  unfold warned
  by_cases h1 : w.dirExists
  · simp [h1]
  · simp only [h1, if_false, Bool.false_eq_true]
    cases w.mkdirError <;> simp

theorem warned_dotfileIsFile (root : String) (w : World) :
    (warned root w).dotfileIsFile = w.dotfileIsFile := by
  unfold warned
  by_cases h1 : w.dirExists
  · simp [h1]
  · simp only [h1, if_false, Bool.false_eq_true]
    cases w.mkdirError <;> simp

theorem warned_dotfileRead (root : String) (w : World) :
    (warned root w).dotfileRead = w.dotfileRead := by
  unfold warned
  by_cases h1 : w.dirExists
  · simp [h1]
  · simp only [h1, if_false, Bool.false_eq_true]
    cases w.mkdirError <;> simp

theorem warned_mkdirError (root : String) (w : World) :
    (warned root w).mkdirError = w.mkdirError := by
  unfold warned
  by_cases h1 : w.dirExists
  · simp [h1]
  · simp only [h1, if_false, Bool.false_eq_true]
    cases w.mkdirError <;> simp

theorem warned_dirExists (root : String) (w : World) :
    (warned root w).dirExists = (w.dirExists || w.mkdirError.isNone) := by
  unfold warned
  by_cases h1 : w.dirExists
  · simp [h1]
  · simp only [h1, if_false, Bool.false_eq_true]
    cases w.mkdirError <;> simp

theorem warned_warnings_of_no_failure (root : String) (w : World)
    (h : w.dirExists = true ∨ w.mkdirError = none) :
    (warned root w).warnings = w.warnings := by
  unfold warned
  rcases h with h | h
  · simp [h]
  · by_cases h1 : w.dirExists
    · simp [h1]
    · simp only [h1, if_false, Bool.false_eq_true, h]

theorem dotfile_step_ok {u w1 : World} (h : dotfile_step u = Except.ok w1) :
    (u.dotfileIsFile = false ∧ w1 = u) ∨
    (∃ lines, u.dotfileIsFile = true ∧ u.dotfileRead = ReadResult.ok lines ∧
       w1 = { u with env := load_dotenv u.env lines }) := by
  unfold dotfile_step at h
  by_cases hf : u.dotfileIsFile
  · right
    cases hr : u.dotfileRead with
    | err e =>
      rw [if_pos hf, hr] at h
      simp at h
    | ok lines =>
      rw [if_pos hf, hr] at h
      simp only [Except.ok.injEq] at h
      exact ⟨lines, hf, rfl, h.symm⟩
  · left
    rw [if_neg hf] at h
    simp only [Except.ok.injEq] at h
    exact ⟨by simpa using hf, h.symm⟩

theorem dotfile_step_ok_of_absent {u : World} (h : u.dotfileIsFile = false) :
    dotfile_step u = Except.ok u := by
  unfold dotfile_step
  rw [h]
  simp

theorem dotfile_step_ok_of_read {u : World} {lines : List String}
    (h1 : u.dotfileIsFile = true) (h2 : u.dotfileRead = ReadResult.ok lines) :
    dotfile_step u = Except.ok { u with env := load_dotenv u.env lines } := by
  unfold dotfile_step
  rw [h1, h2]
  simp

/-! ### Further helper lemmas for the claims -/

theorem data_append_eq (k v : String) :
    (k ++ "=" ++ v).data = k.data ++ '=' :: v.data := by
  have heq : ("=" : String).data = ['='] := by decide
  rw [String.data_append, String.data_append, heq, List.append_assoc]
  rfl

theorem lookupVar_foldl_other {e : Env} {k : String} {pre : List String}
    (hpre : ∀ l2 ∈ pre, lineKey l2 ≠ some k) :
    lookupVar (List.foldl processLine e pre) k = lookupVar e k := by
  induction pre generalizing e with
  | nil => rfl
  | cons l0 rest ih =>
    rw [List.foldl_cons, ih (fun l2 hm => hpre l2 (by simp [hm])),
      lookupVar_processLine_other l0 (hpre l0 (by simp))]

/-! ### The claims -/

/-- C1: every key already present in the environment keeps its value
through `_load_dotenv` and through `configure_environment`; the loader
only adds entries whose keys are absent (first-writer-wins). -/
theorem claim_C1_existing_values_win :
    (∀ (e : Env) (lines : List String) (k v : String),
        lookupVar e k = some v → lookupVar (load_dotenv e lines) k = some v) ∧
    (∀ (root : String) (w w1 : World) (k v : String),
        configure_environment root w = Except.ok w1 →
        lookupVar w.env k = some v → lookupVar w1.env k = some v) := by
  constructor
  · intro e lines k v h
    exact lookupVar_load_dotenv_of_some lines h
  · intro root w w1 k v hc h
    rw [configure_environment_eq] at hc
    rcases dotfile_step_ok hc with ⟨hf, rfl⟩ | ⟨lines, hf, hr, rfl⟩
    · rw [warned_env]
      exact h
    · show lookupVar (load_dotenv (warned root w).env lines) k = some v
      rw [warned_env]
      exact lookupVar_load_dotenv_of_some lines h

/-- Witness for C1: with `FOO=existing` already set, loading a dotfile
line `FOO=new` leaves `FOO` bound to `existing`. -/
theorem claim_C1_witness :
    lookupVar (load_dotenv [("FOO", "existing")] ["FOO=new"]) "FOO" = some "existing" :=
  claim_C1_existing_values_win.1 [("FOO", "existing")] ["FOO=new"] "FOO" "existing"
    (by decide)

/-- C3: a stripped, non-empty, non-comment line is split at the first
`=` into a key and a value, both stripped before use; a line with no
`=` has the whole line as key and the empty string as value and is not
skipped. -/
theorem claim_C3_split_at_first_eq :
    (∀ (e : Env) (rawLine k v : String),
        '=' ∉ k.data → k ≠ "" →
        pyStartsHash (pyStrip rawLine) = false →
        pyStrip rawLine = k ++ "=" ++ v →
        processLine e rawLine = setdefault e (pyStrip k) (pyStrip v)) ∧
    (∀ (e : Env) (rawLine : String),
        pyStrip rawLine ≠ "" →
        pyStartsHash (pyStrip rawLine) = false →
        '=' ∉ (pyStrip rawLine).data →
        processLine e rawLine = setdefault e (pyStrip rawLine) "") := by
  constructor
  · intro e rawLine k v hk hkne hhash hline
    have hne : pyStrip rawLine ≠ "" := by
      rw [hline]
      intro hcon
      have hd := congrArg String.data hcon
      rw [data_append_eq] at hd
      simp at hd
    have hKey : lineKey rawLine = some (pyStrip k) := by
      unfold lineKey
      rw [if_neg (by simp only [hne, hhash, Bool.false_eq_true, or_self, not_false_eq_true]),
        hline, pyPartitionEq_append hk]
      simp [hkne]
    have hVal : lineVal rawLine = pyStrip v := by
      unfold lineVal
      rw [hline, pyPartitionEq_append hk]
    rw [processLine_of_lineKey_some e hKey, hVal]
  · intro e rawLine hne hhash heq
    have hpart : pyPartitionEq (pyStrip rawLine) = (pyStrip rawLine, "") :=
      pyPartitionEq_no_eq heq
    have hKey : lineKey rawLine = some (pyStrip rawLine) := by
      unfold lineKey
      rw [if_neg (by simp only [hne, hhash, Bool.false_eq_true, or_self, not_false_eq_true]),
        hpart]
      simp [hne, pyStrip_idem]
    have hVal : lineVal rawLine = "" := by
      unfold lineVal
      rw [hpart]
      rfl
    rw [processLine_of_lineKey_some e hKey, hVal]

/-- Witness for C3: the line ` FOO = bar ` binds the stripped key to
the stripped value, and the line ` NOKEY ` (no `=`) binds the whole
stripped line to the empty string. -/
theorem claim_C3_witness :
    processLine [] " FOO = bar " = setdefault [] (pyStrip "FOO ") (pyStrip " bar") ∧
    processLine [] " NOKEY " = setdefault [] (pyStrip " NOKEY ") "" :=
  ⟨claim_C3_split_at_first_eq.1 [] " FOO = bar " "FOO " " bar"
      (by decide) (by decide) (by decide) (by decide),
   claim_C3_split_at_first_eq.2 [] " NOKEY " (by decide) (by decide) (by decide)⟩

/-- C4: a line whose key is empty after stripping (such as a bare
`=value`), and a line that strips to empty or to a `#` comment, leaves
the environment unchanged and raises no error. -/
theorem claim_C4_malformed_skipped :
    ∀ (e : Env) (rawLine : String),
      (pyStrip (pyPartitionEq (pyStrip rawLine)).1 = "" ∨
       pyStrip rawLine = "" ∨ pyStartsHash (pyStrip rawLine) = true) →
      processLine e rawLine = e ∧ load_dotenv e [rawLine] = e := by
  intro e rawLine h
  have hp : processLine e rawLine = e := by
    apply processLine_of_lineKey_none
    unfold lineKey
    by_cases h1 : pyStrip rawLine = "" ∨ pyStartsHash (pyStrip rawLine)
    · simp [h1]
    · rcases h with h | h | h
      · have hk := pyPartitionEq_key_ne_empty h
        simp [h1, hk]
      · exact absurd (Or.inl h) h1
      · exact absurd (Or.inr h) h1
  refine ⟨hp, ?_⟩
  unfold load_dotenv
  simpa using hp

/-- Witness for C4: the malformed line `=novalue`, the comment line
`# c`, and a blank line each leave a sample environment untouched. -/
theorem claim_C4_witness :
    processLine [("A", "1")] "=novalue" = [("A", "1")] ∧
    load_dotenv [("A", "1")] ["=novalue"] = [("A", "1")] :=
  claim_C4_malformed_skipped [("A", "1")] "=novalue" (by decide)

/-- C2: loading the sample dotfile when none of `FOO`, `BAZ`, `EMPTY`,
`NOKEY` is pre-set yields `FOO="bar"`, `BAZ="qux"`, `EMPTY=""`,
`NOKEY=""`, and binds no variable with the empty-string name. -/
theorem claim_C2_sample_dotfile (e : Env)
    (hF : lookupVar e "FOO" = none) (hB : lookupVar e "BAZ" = none)
    (hE : lookupVar e "EMPTY" = none) (hN : lookupVar e "NOKEY" = none) :
    load_dotenv e sampleLines =
      e ++ [("FOO", "bar"), ("BAZ", "qux"), ("EMPTY", ""), ("NOKEY", "")] ∧
    lookupVar (load_dotenv e sampleLines) "FOO" = some "bar" ∧
    lookupVar (load_dotenv e sampleLines) "BAZ" = some "qux" ∧
    lookupVar (load_dotenv e sampleLines) "EMPTY" = some "" ∧
    lookupVar (load_dotenv e sampleLines) "NOKEY" = some "" ∧
    lookupVar (load_dotenv e sampleLines) "" = lookupVar e "" := by
  have s1 : processLine e "FOO=bar" = e ++ [("FOO", "bar")] := by
    rw [processLine_of_lineKey_some e (show lineKey "FOO=bar" = some "FOO" by decide),
      show lineVal "FOO=bar" = "bar" by decide, setdefault_of_absent _ hF]
  have s2 : processLine (e ++ [("FOO", "bar")]) "# comment" = e ++ [("FOO", "bar")] :=
    processLine_of_lineKey_none _ (by decide)
  have s3 : processLine (e ++ [("FOO", "bar")]) "BAZ = qux" =
      e ++ [("FOO", "bar"), ("BAZ", "qux")] := by
    rw [processLine_of_lineKey_some _ (show lineKey "BAZ = qux" = some "BAZ" by decide),
      show lineVal "BAZ = qux" = "qux" by decide,
      setdefault_of_absent _ (by rw [lookupVar_append_of_none _ hB]; decide),
      List.append_assoc]
    rfl
  have s4 : processLine (e ++ [("FOO", "bar"), ("BAZ", "qux")]) "EMPTY=" =
      e ++ [("FOO", "bar"), ("BAZ", "qux"), ("EMPTY", "")] := by
    rw [processLine_of_lineKey_some _ (show lineKey "EMPTY=" = some "EMPTY" by decide),
      show lineVal "EMPTY=" = "" by decide,
      setdefault_of_absent _ (by rw [lookupVar_append_of_none _ hE]; decide),
      List.append_assoc]
    rfl
  have s5 : processLine (e ++ [("FOO", "bar"), ("BAZ", "qux"), ("EMPTY", "")]) "=novalue" =
      e ++ [("FOO", "bar"), ("BAZ", "qux"), ("EMPTY", "")] :=
    processLine_of_lineKey_none _ (by decide)
  have s6 : processLine (e ++ [("FOO", "bar"), ("BAZ", "qux"), ("EMPTY", "")]) "NOKEY" =
      e ++ [("FOO", "bar"), ("BAZ", "qux"), ("EMPTY", ""), ("NOKEY", "")] := by
    rw [processLine_of_lineKey_some _ (show lineKey "NOKEY" = some "NOKEY" by decide),
      show lineVal "NOKEY" = "" by decide,
      setdefault_of_absent _ (by rw [lookupVar_append_of_none _ hN]; decide),
      List.append_assoc]
    rfl
  have main : load_dotenv e sampleLines =
      e ++ [("FOO", "bar"), ("BAZ", "qux"), ("EMPTY", ""), ("NOKEY", "")] := by
    unfold sampleLines load_dotenv
    rw [List.foldl_cons, s1, List.foldl_cons, s2, List.foldl_cons, s3, List.foldl_cons,
      s4, List.foldl_cons, s5, List.foldl_cons, s6, List.foldl_nil]
  refine ⟨main, ?_, ?_, ?_, ?_, ?_⟩
  · rw [main, lookupVar_append_of_none _ hF]
    decide
  · rw [main, lookupVar_append_of_none _ hB]
    decide
  · rw [main, lookupVar_append_of_none _ hE]
    decide
  · rw [main, lookupVar_append_of_none _ hN]
    decide
  · rw [main]
    cases hv : lookupVar e "" with
    | some x => exact lookupVar_append_of_some _ hv
    | none =>
      rw [lookupVar_append_of_none _ hv]
      decide

/-- Witness for C2: the sample dotfile loaded into the empty
environment. -/
theorem claim_C2_witness :
    load_dotenv [] sampleLines =
      [] ++ [("FOO", "bar"), ("BAZ", "qux"), ("EMPTY", ""), ("NOKEY", "")] ∧
    lookupVar (load_dotenv [] sampleLines) "FOO" = some "bar" ∧
    lookupVar (load_dotenv [] sampleLines) "BAZ" = some "qux" ∧
    lookupVar (load_dotenv [] sampleLines) "EMPTY" = some "" ∧
    lookupVar (load_dotenv [] sampleLines) "NOKEY" = some "" ∧
    lookupVar (load_dotenv [] sampleLines) "" = lookupVar [] "" :=
  claim_C2_sample_dotfile [] (by decide) (by decide) (by decide) (by decide)

/-- C9: when a dotfile holds several non-skipped lines with the same
stripped key and the key is absent from the environment, the value of
the earliest such line wins; later duplicates are ignored. -/
theorem claim_C9_first_occurrence_wins (e : Env) (pre post : List String) (l k : String)
    (hk : lineKey l = some k) (he : lookupVar e k = none)
    (hpre : ∀ l2 ∈ pre, lineKey l2 ≠ some k) :
    lookupVar (load_dotenv e (pre ++ l :: post)) k = some (lineVal l) := by
  unfold load_dotenv
  rw [List.foldl_append, List.foldl_cons]
  have h1 : lookupVar (List.foldl processLine e pre) k = none := by
    rw [lookupVar_foldl_other hpre]
    exact he
  have h2 : lookupVar (processLine (List.foldl processLine e pre) l) k = some (lineVal l) := by
    rw [processLine_of_lineKey_some _ hk, setdefault_of_absent _ h1,
      lookupVar_append_of_none _ h1]
    simp [lookupVar]
  exact lookupVar_load_dotenv_of_some post h2

/-- Witness for C9: in a file binding `A` twice, the first value `1`
wins over the later `2`. -/
theorem claim_C9_witness :
    lookupVar (load_dotenv [] (["B=0"] ++ "A=1" :: ["A=2"])) "A" = some (lineVal "A=1") :=
  claim_C9_first_occurrence_wins [] ["B=0"] ["A=2"] "A=1" "A"
    (by decide) (by decide) (by decide)

/-- C10: neither `_load_dotenv` nor `configure_environment` ever
removes an environment variable: every key bound before the call is
still bound after it. -/
theorem claim_C10_no_removal :
    (∀ (e : Env) (lines : List String) (k : String),
        lookupVar e k ≠ none → lookupVar (load_dotenv e lines) k ≠ none) ∧
    (∀ (root : String) (w w1 : World) (k : String),
        configure_environment root w = Except.ok w1 →
        lookupVar w.env k ≠ none → lookupVar w1.env k ≠ none) := by
  constructor
  · intro e lines k h
    exact lookupVar_load_dotenv_ne_none lines h
  · intro root w w1 k hc h
    rw [configure_environment_eq] at hc
    rcases dotfile_step_ok hc with ⟨hf, rfl⟩ | ⟨lines, hf, hr, rfl⟩
    · rw [warned_env]
      exact h
    · show lookupVar (load_dotenv (warned root w).env lines) k ≠ none
      rw [warned_env]
      exact lookupVar_load_dotenv_ne_none lines h

/-- Witness for C10: a pre-set key survives loading a dotfile that does
not mention it. -/
theorem claim_C10_witness :
    lookupVar (load_dotenv [("HOME", "/root")] ["FOO=bar"]) "HOME" ≠ none :=
  claim_C10_no_removal.1 [("HOME", "/root")] ["FOO=bar"] "HOME" (by decide)

/-- C5: when creating `<root>/data/processed` fails, the error is
caught, exactly one warning carrying the path and the underlying error
is appended, nothing is raised by the directory step, and control
proceeds to the conditional dotfile-load step. -/
theorem claim_C5_mkdir_failure_warned (root er : String) (w : World)
    (h1 : w.dirExists = false) (h2 : w.mkdirError = some er) :
    configure_environment root w =
      dotfile_step { w with
        loggingConfigured := true
        warnings := w.warnings ++ [warnMsg (root ++ "/data/processed") er] } ∧
    (w.dotfileIsFile = false →
      configure_environment root w =
        Except.ok { w with
          loggingConfigured := true
          warnings := w.warnings ++ [warnMsg (root ++ "/data/processed") er] }) ∧
    (∃ pre mid : String,
      warnMsg (root ++ "/data/processed") er =
        pre ++ (root ++ "/data/processed") ++ mid ++ er) := by
  have hw : warned root w = { w with
      loggingConfigured := true
      warnings := w.warnings ++ [warnMsg (root ++ "/data/processed") er] } := by
    unfold warned
    rw [h1, h2]
    simp
  refine ⟨?_, ?_, ?_⟩
  · rw [configure_environment_eq, hw]
  · intro hf
    rw [configure_environment_eq, hw]
    exact dotfile_step_ok_of_absent hf
  · exact ⟨"Unable to create processed data directory ", ": ", rfl⟩

/-- Witness for C5: a world with no directory and a failing mkdir. -/
theorem claim_C5_witness :
    configure_environment "/proj"
        { dirExists := false, mkdirError := some "Permission denied",
          dotfileIsFile := false, dotfileRead := ReadResult.ok [], env := [],
          warnings := [], loggingConfigured := false } =
      dotfile_step
        { dirExists := false, mkdirError := some "Permission denied",
          dotfileIsFile := false, dotfileRead := ReadResult.ok [], env := [],
          warnings := [warnMsg ("/proj" ++ "/data/processed") "Permission denied"],
          loggingConfigured := true } ∧
    configure_environment "/proj"
        { dirExists := false, mkdirError := some "Permission denied",
          dotfileIsFile := false, dotfileRead := ReadResult.ok [], env := [],
          warnings := [], loggingConfigured := false } =
      Except.ok
        { dirExists := false, mkdirError := some "Permission denied",
          dotfileIsFile := false, dotfileRead := ReadResult.ok [], env := [],
          warnings := [warnMsg ("/proj" ++ "/data/processed") "Permission denied"],
          loggingConfigured := true } ∧
    (∃ pre mid : String,
      warnMsg ("/proj" ++ "/data/processed") "Permission denied" =
        pre ++ ("/proj" ++ "/data/processed") ++ mid ++ "Permission denied") := by
  have h := claim_C5_mkdir_failure_warned "/proj" "Permission denied"
    { dirExists := false, mkdirError := some "Permission denied",
      dotfileIsFile := false, dotfileRead := ReadResult.ok [], env := [],
      warnings := [], loggingConfigured := false } rfl rfl
  exact ⟨h.1, h.2.1 rfl, h.2.2⟩

/-- C6: when `<root>/.env` is not a regular file, the call succeeds, no
environment variable changes, and no warning arises from the absence
itself. -/
theorem claim_C6_absent_dotfile (root : String) (w : World)
    (h : w.dotfileIsFile = false) :
    ∃ w1, configure_environment root w = Except.ok w1 ∧ w1.env = w.env ∧
      (w.dirExists = true ∨ w.mkdirError = none → w1.warnings = w.warnings) := by
  refine ⟨warned root w, ?_, warned_env root w, ?_⟩
  · rw [configure_environment_eq]
    exact dotfile_step_ok_of_absent (by rw [warned_dotfileIsFile]; exact h)
  · exact warned_warnings_of_no_failure root w

/-- Witness for C6: a world without a dotfile. -/
theorem claim_C6_witness :
    ∃ w1, configure_environment "/proj"
        { dirExists := true, mkdirError := none, dotfileIsFile := false,
          dotfileRead := ReadResult.ok [], env := [("K", "v")], warnings := [],
          loggingConfigured := false } = Except.ok w1 ∧
      w1.env = [("K", "v")] ∧ (true = true ∨ (none : Option String) = none → w1.warnings = []) :=
  claim_C6_absent_dotfile "/proj"
    { dirExists := true, mkdirError := none, dotfileIsFile := false,
      dotfileRead := ReadResult.ok [], env := [("K", "v")], warnings := [],
      loggingConfigured := false } rfl

/-- C7: a dotfile that exists but cannot be read or decoded makes
`configure_environment` propagate the error to the caller: the
bootstrap aborts. -/
theorem claim_C7_read_error_propagates (root msg : String) (w : World)
    (h1 : w.dotfileIsFile = true) (h2 : w.dotfileRead = ReadResult.err msg) :
    configure_environment root w = Except.error msg := by
  rw [configure_environment_eq]
  unfold dotfile_step
  rw [warned_dotfileIsFile, h1, warned_dotfileRead, h2]
  simp

/-- Witness for C7: an unreadable dotfile aborts the bootstrap with the
read error. -/
theorem claim_C7_witness :
    configure_environment "/proj"
        { dirExists := true, mkdirError := none, dotfileIsFile := true,
          dotfileRead := ReadResult.err "UnicodeDecodeError", env := [], warnings := [],
          loggingConfigured := false } = Except.error "UnicodeDecodeError" :=
  claim_C7_read_error_propagates "/proj" "UnicodeDecodeError"
    { dirExists := true, mkdirError := none, dotfileIsFile := true,
      dotfileRead := ReadResult.err "UnicodeDecodeError", env := [], warnings := [],
      loggingConfigured := false } rfl rfl

/-- C8: a second `configure_environment` call on the state left by a
successful first call raises no error and leaves the directory state
and the environment exactly as the first call left them. -/
theorem claim_C8_idempotent (root : String) (w w1 : World)
    (h : configure_environment root w = Except.ok w1) :
    ∃ w2, configure_environment root w1 = Except.ok w2 ∧
      w2.dirExists = w1.dirExists ∧ w2.env = w1.env := by
  rw [configure_environment_eq] at h
  have hfix : ∀ u : World, u.mkdirError = w.mkdirError →
      u.dirExists = (w.dirExists || w.mkdirError.isNone) →
      (warned root u).dirExists = u.dirExists := by
    intro u hm hd
    rw [warned_dirExists, hm, hd]
    cases w.mkdirError <;> simp
  rcases dotfile_step_ok h with ⟨hf, rfl⟩ | ⟨lines, hf, hr, rfl⟩
  · refine ⟨warned root (warned root w), ?_, ?_, warned_env root (warned root w)⟩
    · rw [configure_environment_eq]
      exact dotfile_step_ok_of_absent (by rw [warned_dotfileIsFile]; exact hf)
    · exact hfix (warned root w) (warned_mkdirError root w) (warned_dirExists root w)
  · set u := { warned root w with env := load_dotenv (warned root w).env lines } with hu
    have hm : u.mkdirError = w.mkdirError := warned_mkdirError root w
    have hd : u.dirExists = (w.dirExists || w.mkdirError.isNone) := warned_dirExists root w
    have hf1 : u.dotfileIsFile = true := by
      show (warned root w).dotfileIsFile = true
      exact hf
    have hr1 : u.dotfileRead = ReadResult.ok lines := by
      show (warned root w).dotfileRead = ReadResult.ok lines
      exact hr
    refine ⟨{ warned root u with env := load_dotenv (warned root u).env lines }, ?_, ?_, ?_⟩
    · rw [configure_environment_eq]
      exact dotfile_step_ok_of_read (by rw [warned_dotfileIsFile]; exact hf1)
        (by rw [warned_dotfileRead]; exact hr1)
    · show (warned root u).dirExists = u.dirExists
      exact hfix u hm hd
    · show load_dotenv (warned root u).env lines = u.env
      rw [warned_env]
      show load_dotenv (load_dotenv (warned root w).env lines) lines =
        load_dotenv (warned root w).env lines
      exact load_dotenv_idem _ lines

/-- Witness for C8: two successive bootstraps over a world with a
dotfile binding `FOO`. -/
theorem claim_C8_witness :
    ∃ w2, configure_environment "/proj"
        { dirExists := true, mkdirError := none, dotfileIsFile := true,
          dotfileRead := ReadResult.ok ["FOO=bar"], env := [("FOO", "bar")],
          warnings := [], loggingConfigured := true } = Except.ok w2 ∧
      w2.dirExists = true ∧ w2.env = [("FOO", "bar")] := by
  have h := claim_C8_idempotent "/proj"
    { dirExists := true, mkdirError := none, dotfileIsFile := true,
      dotfileRead := ReadResult.ok ["FOO=bar"], env := [], warnings := [],
      loggingConfigured := false }
    { dirExists := true, mkdirError := none, dotfileIsFile := true,
      dotfileRead := ReadResult.ok ["FOO=bar"], env := [("FOO", "bar")],
      warnings := [], loggingConfigured := true }
    (by rfl)
  simpa using h

end ProjectSetup
